import Mathlib

/-!
# AwashTube: a shallow embedding of the repository's three source files

The repository is a browser video client.  Its code is embedded here as pure
Lean functions:

* `YouTubeApi` models `src/api/youtube.ts` (the file staged as
  `src/unnamed/part_000`): the two chained HTTP requests, the response
  reshaping (`formatDuration`, `formatNumber`) and the in-memory timestamped
  cache of `fetchYouTubeVideos`.  The network is an explicit oracle
  (`NetEnv`) holding the outcome of each of the two requests, and the
  function also returns the list of requests it performed, so that cache
  hits ("no network request is made") are observable.  The two
  locale-dependent browser builtins (`Date.toLocaleDateString`,
  `Number.toLocaleString`) are fields of `JsEnv`; everything else is
  translated from the source.
* `App` models the stateful component of `src/src/App.tsx` (the richer of
  the two variants; `src/unnamed/part_001` is the same component without
  the watch-later list): the four id lists, the tab filter, the event
  handlers and the debounced `localStorage` save, as explicit state-passing
  functions on `AppState` and an association-list `LStore`.

JavaScript `Date.now()` timestamps are `Int` milliseconds, so the freshness
test `Date.now() - cached.timestamp < CACHE_DURATION` keeps its exact
signed semantics.
-/

namespace YouTubeApi

/-- `const CHANNEL_ID = "UCGSroElDPOtCb8Wwhkae7qw"` of `youtube.ts`. -/
def CHANNEL_ID : String := "UCGSroElDPOtCb8Wwhkae7qw"

/-- `const CACHE_DURATION = 1000 * 60 * 5` (5 minutes, in milliseconds). -/
def CACHE_DURATION : Int := 1000 * 60 * 5

/-- The `Video` interface of `youtube.ts` (the reshaped item). -/
structure Video where
  id : String
  title : String
  description : String
  thumbnail : String
  publishedAt : String
  channelTitle : String
  duration : String
  viewCount : String
  likeCount : String
deriving Repr, DecidableEq

/-- The `ApiResponse` interface of `youtube.ts`. -/
structure ApiResponse where
  videos : List Video
  nextPageToken : Option String := none
  prevPageToken : Option String := none
  totalResults : Option Nat := none
deriving Repr, DecidableEq

/-- One item of the search response: `item.id.kind` and `item.id.videoId`. -/
structure SearchItem where
  kind : String
  videoId : String
deriving Repr, DecidableEq

/-- The parsed body of the first (search) request: `searchData`. -/
structure SearchData where
  items : List SearchItem
  nextPageToken : Option String := none
  prevPageToken : Option String := none
  /-- `searchData.pageInfo?.totalResults`. -/
  totalResults : Option Nat := none
deriving Repr, DecidableEq

/-- One item of the details response, with the raw fields the reshaping
reads: `snippet`, `contentDetails.duration`, `statistics`. -/
structure VideoItem where
  id : String
  title : String
  description : String
  /-- `item.snippet.thumbnails.high?.url` (`none` when `high` is absent). -/
  thumbnailHigh : Option String
  /-- `item.snippet.thumbnails.default.url`. -/
  thumbnailDefault : String
  publishedAt : String
  channelTitle : String
  /-- `item.contentDetails.duration`, an ISO-8601 duration. -/
  duration : String
  viewCount : String
  likeCount : String
deriving Repr, DecidableEq

/-- The parsed body of the second (details) request: `videosData`. -/
structure VideosData where
  items : List VideoItem
deriving Repr, DecidableEq

/-- The locale-dependent browser builtins the reshaping calls; they are
parameters of the embedding, not repository code. -/
structure JsEnv where
  /-- `new Date(s).toLocaleDateString()`. -/
  toLocaleDateString : String → String
  /-- `n.toLocaleString()` for the number `parseInt` produced
  (`none` stands for `NaN`). -/
  toLocaleString : Option Int → String

/-- JavaScript `parseInt(s)` in base 10: skip leading whitespace, optional
sign, then the leading digit run; `none` (`NaN`) when there is none. -/
def jsParseInt (s : String) : Option Int :=
  let cs := s.toList.dropWhile (fun c => c = ' ' ∨ c = '\t' ∨ c = '\n' ∨ c = '\r')
  let signAndRest : Int × List Char :=
    match cs with
    | '-' :: rest => (-1, rest)
    | '+' :: rest => (1, rest)
    | rest => (1, rest)
  let digits := signAndRest.2.takeWhile Char.isDigit
  if digits.isEmpty then none
  else some (signAndRest.1 * (digits.foldl (fun n c => n * 10 + (c.toNat - '0'.toNat)) 0 : Nat))

/-- `formatNumber`: `parseInt(num).toLocaleString()`. -/
def formatNumber (env : JsEnv) (num : String) : String :=
  env.toLocaleString (jsParseInt num)

/-- The characters after the first occurrence of the literal `"PT"`, the
position at which the regex `/PT(\d+H)?(\d+M)?(\d+S)?/` first matches;
`none` when `"PT"` does not occur (the regex match is `null`). -/
def findPT : List Char → Option (List Char)
  | [] => none
  | c :: rest =>
    if c = 'P' then
      match rest with
      | c2 :: rest2 => if c2 = 'T' then some rest2 else findPT rest
      | [] => none
    else findPT rest

/-- One optional group `(\d+X)?` of the duration regex: it matches exactly
when a nonempty maximal digit run is immediately followed by the letter
`X` (a shorter run would end at a digit, so greedy matching with
backtracking accepts no other split).  Returns the group's numeric value
and the remaining characters. -/
def matchGroup (letter : Char) (s : List Char) : Option Nat × List Char :=
  let digits := s.takeWhile Char.isDigit
  let rest := s.dropWhile Char.isDigit
  match rest with
  | c :: rest2 =>
    if c = letter ∧ ¬ digits.isEmpty then
      (some (digits.foldl (fun n d => n * 10 + (d.toNat - '0'.toNat)) 0), rest2)
    else (none, s)
  | [] => (none, s)

/-- `minutes.toString().padStart(2, '0')`. -/
def pad2 (n : Nat) : String :=
  let s := toString n
  if s.length < 2 then "0" ++ s else s

/-- `formatDuration`: parse `/PT(\d+H)?(\d+M)?(\d+S)?/` and print `h:mm:ss`
when hours are positive, `m:ss` otherwise (`parseInt(undefined) || 0`
turns an unmatched group into 0). -/
def formatDuration (duration : String) : String :=
  match findPT duration.toList with
  | none => "0:00"
  | some rest =>
    let hGroup := matchGroup 'H' rest
    let mGroup := matchGroup 'M' hGroup.2
    let sGroup := matchGroup 'S' mGroup.2
    let hours := hGroup.1.getD 0
    let minutes := mGroup.1.getD 0
    let seconds := sGroup.1.getD 0
    if hours > 0 then toString hours ++ ":" ++ pad2 minutes ++ ":" ++ pad2 seconds
    else toString minutes ++ ":" ++ pad2 seconds

/-- JavaScript `a || b` on an optional string: `b` when `a` is absent or
empty (falsy). -/
def jsOrString (a : Option String) (b : String) : String :=
  match a with
  | some u => if u = "" then b else u
  | none => b

/-- The reshaping `videosData.items.map(item => ({...}))` applied to one
item. -/
def reshapeItem (env : JsEnv) (item : VideoItem) : Video :=
  { id := item.id
    title := item.title
    description := item.description
    thumbnail := jsOrString item.thumbnailHigh item.thumbnailDefault
    publishedAt := env.toLocaleDateString item.publishedAt
    channelTitle := item.channelTitle
    duration := formatDuration item.duration
    viewCount := formatNumber env item.viewCount
    likeCount := formatNumber env item.likeCount }

/-- `searchData.items.filter(kind === "youtube#video").map(videoId).join(",")`. -/
def extractVideoIds (sd : SearchData) : String :=
  String.intercalate "," ((sd.items.filter (fun i => i.kind == "youtube#video")).map (fun i => i.videoId))

/-- The `ApiResponse` built from the two parsed bodies. -/
def buildResponse (env : JsEnv) (sd : SearchData) (vd : VideosData) : ApiResponse :=
  { videos := vd.items.map (reshapeItem env)
    nextPageToken := sd.nextPageToken
    prevPageToken := sd.prevPageToken
    totalResults := sd.totalResults }

/-- An HTTP request `fetchYouTubeVideos` can perform, by its query
parameters. -/
inductive Req where
  /-- The `/search` request with `maxResults` and `pageToken`. -/
  | search (maxResults : Nat) (pageToken : String)
  /-- The `/videos` request with the joined id list. -/
  | videos (ids : String)
deriving Repr, DecidableEq

/-- The network oracle: the outcome of each of the two requests, a parsed
body or a thrown error (a non-ok status or a rejected `fetch`). -/
structure NetEnv where
  searchResp : Except String SearchData
  videosResp : Except String VideosData

/-- A cache entry: `{ timestamp: number; data: ApiResponse }`. -/
structure CacheEntry where
  timestamp : Int
  data : ApiResponse
deriving Repr, DecidableEq

/-- The module-level `cache = new Map<string, {timestamp, data}>()`, as an
association list (first binding wins). -/
abbrev Cache := List (String × CacheEntry)

/-- `cache.get(key)` / `cache.has(key)`. -/
def cacheGet (cache : Cache) (key : String) : Option CacheEntry :=
  cache.lookup key

/-- `cache.set(key, entry)`: bind `key`, dropping any earlier binding. -/
def cacheSet (cache : Cache) (key : String) (entry : CacheEntry) : Cache :=
  (key, entry) :: cache.filter (fun p => p.1 != key)

/-- The composite cache key `` `${CHANNEL_ID}-${maxResults}-${pageToken}` ``. -/
def cacheKey (maxResults : Nat) (pageToken : String) : String :=
  CHANNEL_ID ++ "-" ++ toString maxResults ++ "-" ++ pageToken

instance {α β : Type} [DecidableEq α] [DecidableEq β] : DecidableEq (Except α β) := fun x y =>
  match x, y with
  | .error a, .error b =>
    if h : a = b then .isTrue (h ▸ rfl) else .isFalse (fun hc => h (Except.error.inj hc))
  | .error _, .ok _ => .isFalse (fun hc => Except.noConfusion hc)
  | .ok _, .error _ => .isFalse (fun hc => Except.noConfusion hc)
  | .ok a, .ok b =>
    if h : a = b then .isTrue (h ▸ rfl) else .isFalse (fun hc => h (Except.ok.inj hc))

/-- What one call to `fetchYouTubeVideos` produces: the returned value or
thrown error, the cache as the call leaves it, and the requests performed
in order. -/
structure FetchResult where
  result : Except String ApiResponse
  cache : Cache
  requests : List Req
deriving Repr, DecidableEq

/-- The `try` block of `fetchYouTubeVideos`: search request, id
extraction (returning `{ videos: [] }` when the joined ids are the empty,
falsy string), details request, reshaping, and `cache.set` before
returning.  The `catch` block only logs and rethrows, so a thrown error
propagates unchanged. -/
def fetchNetwork (env : JsEnv) (net : NetEnv) (cache : Cache) (now : Int)
    (maxResults : Nat) (pageToken : String) : FetchResult :=
  match net.searchResp with
  | .error e => ⟨.error e, cache, [.search maxResults pageToken]⟩
  | .ok searchData =>
    let videoIds := extractVideoIds searchData
    if videoIds = "" then
      ⟨.ok { videos := [] }, cache, [.search maxResults pageToken]⟩
    else
      match net.videosResp with
      | .error e => ⟨.error e, cache, [.search maxResults pageToken, .videos videoIds]⟩
      | .ok videosData =>
        let response := buildResponse env searchData videosData
        ⟨.ok response,
         cacheSet cache (cacheKey maxResults pageToken) ⟨now, response⟩,
         [.search maxResults pageToken, .videos videoIds]⟩

/-- `fetchYouTubeVideos(maxResults, pageToken)`: return the cached payload
when the key is bound and fresh (`Date.now() - timestamp < CACHE_DURATION`),
otherwise run the network sequence `fetchNetwork`. -/
def fetchYouTubeVideos (env : JsEnv) (net : NetEnv) (cache : Cache) (now : Int)
    (maxResults : Nat) (pageToken : String) : FetchResult :=
  match cacheGet cache (cacheKey maxResults pageToken) with
  | some cached =>
    if now - cached.timestamp < CACHE_DURATION then ⟨.ok cached.data, cache, []⟩
    else fetchNetwork env net cache now maxResults pageToken
  | none => fetchNetwork env net cache now maxResults pageToken

/-- A concrete environment for witnesses: identity date formatting and
plain number printing. -/
def idJsEnv : JsEnv :=
  { toLocaleDateString := fun s => s
    toLocaleString := fun n => match n with | some i => toString i | none => "NaN" }

/-- A network oracle whose search succeeds with no items. -/
def emptySearchNet : NetEnv :=
  { searchResp := .ok { items := [] }, videosResp := .error "network unreachable" }

/-- A search body with one video item. -/
def sdW : SearchData := { items := [{ kind := "youtube#video", videoId := "v1" }] }

/-- A details body with the matching item. -/
def vdW : VideosData :=
  { items := [{ id := "v1", title := "t", description := "d", thumbnailHigh := some "hi",
                thumbnailDefault := "def", publishedAt := "2024-01-01", channelTitle := "ch",
                duration := "PT1M2S", viewCount := "1000", likeCount := "10" }] }

/-- A network oracle where both requests succeed. -/
def netW : NetEnv := { searchResp := .ok sdW, videosResp := .ok vdW }

end YouTubeApi

namespace App

/-- The `Video` interface of `App.tsx` (the view's validated shape). -/
structure Vid where
  id : String
  title : String
  description : String
  thumbnail : String
  duration : String
  views : String
  date : String
  /-- `qualities?: string[]`. -/
  qualities : Option (List String)
deriving Repr, DecidableEq

/-- The component state the modelled handlers read and write: the loaded
videos, the open player, the four persisted id lists, the active tab and
the flags the handlers touch. -/
structure AppState where
  videos : List Vid
  currentVideo : Option Vid
  favorites : List String
  history : List String
  playlist : List String
  watchLater : List String
  activeTab : String
  loading : Bool
  isPlaying : Bool
deriving Repr, DecidableEq

/-- The validation `loadData` applies to one fetched video: each string
field is copied (`|| ""` is the identity on strings), `views` takes
`viewCount`, `date` takes `publishedAt`, and `qualities`, absent from the
API's `Video`, falls back to `["360p", "480p", "720p", "1080p"]`. -/
def validatedVideo (v : YouTubeApi.Video) : Vid :=
  { id := v.id
    title := v.title
    description := v.description
    thumbnail := v.thumbnail
    duration := v.duration
    views := v.viewCount
    date := v.publishedAt
    qualities := some ["360p", "480p", "720p", "1080p"] }

/-- The `loadData` effect body: `setLoading(true)`, await the fetch, set
the validated videos on success, log and keep the videos on error, and in
either case `setLoading(false)` in the `finally` block.  The `catch`
swallows the error, so the function is total. -/
def loadData (fetchResult : Except String YouTubeApi.ApiResponse) (st : AppState) : AppState :=
  let st1 := { st with loading := true }
  match fetchResult with
  | .ok data => { st1 with videos := data.videos.map validatedVideo, loading := false }
  | .error _ => { st1 with loading := false }

/-- JavaScript `s.includes(sub)`: `sub` occurs contiguously in `s`. -/
def jsIncludes (s sub : String) : Bool :=
  decide (sub.toList <:+: s.toList)

/-- The `matchesSearch` test of `filteredVideos`:
`title.toLowerCase().includes(q.toLowerCase()) ||
 description.toLowerCase().includes(q.toLowerCase())`. -/
def matchesSearch (searchQuery : String) (video : Vid) : Bool :=
  jsIncludes video.title.toLower searchQuery.toLower ||
    jsIncludes video.description.toLower searchQuery.toLower

/-- `filteredVideos`: keep the videos that match the search and, on one of
the four list tabs, whose id the corresponding list `includes`; on any
other tab (`"all"`) only the search restricts. -/
def filteredVideos (videos : List Vid) (searchQuery : String) (activeTab : String)
    (favorites history playlist watchLater : List String) : List Vid :=
  videos.filter fun video =>
    let m := matchesSearch searchQuery video
    if activeTab = "favorites" then m && favorites.contains video.id
    else if activeTab = "history" then m && history.contains video.id
    else if activeTab = "playlist" then m && playlist.contains video.id
    else if activeTab = "watchLater" then m && watchLater.contains video.id
    else m

/-- `playVideo`: open the player on the video, start playing, and append
the id to the history unless it is already there. -/
def playVideo (video : Vid) (st : AppState) : AppState :=
  { st with
    currentVideo := some video
    isPlaying := true
    history := if st.history.contains video.id then st.history else st.history ++ [video.id] }

/-- `toggleFavorite` on the favorites list: remove every occurrence of the
id when present (`filter(id !== videoId)`), append it otherwise. -/
def toggleFavorite (prev : List String) (videoId : String) : List String :=
  if prev.contains videoId then prev.filter (fun id => id != videoId) else prev ++ [videoId]

/-- `togglePlaylist` on the playlist, same body as `toggleFavorite`. -/
def togglePlaylist (prev : List String) (videoId : String) : List String :=
  if prev.contains videoId then prev.filter (fun id => id != videoId) else prev ++ [videoId]

/-- `toggleWatchLater` on the watch-later list, same body again. -/
def toggleWatchLater (prev : List String) (videoId : String) : List String :=
  if prev.contains videoId then prev.filter (fun id => id != videoId) else prev ++ [videoId]

/-- `toggleFavorite` as the state transition `setFavorites(prev => ...)`. -/
def appToggleFavorite (videoId : String) (st : AppState) : AppState :=
  { st with favorites := toggleFavorite st.favorites videoId }

/-- `togglePlaylist` as the state transition. -/
def appTogglePlaylist (videoId : String) (st : AppState) : AppState :=
  { st with playlist := togglePlaylist st.playlist videoId }

/-- `toggleWatchLater` as the state transition. -/
def appToggleWatchLater (videoId : String) (st : AppState) : AppState :=
  { st with watchLater := toggleWatchLater st.watchLater videoId }

/-- `clearAllData`: when the `window.confirm` dialog is accepted, empty the
four lists and return to the `"all"` tab; otherwise do nothing. -/
def clearAllData (confirmed : Bool) (st : AppState) : AppState :=
  if confirmed then
    { st with favorites := [], history := [], playlist := [], watchLater := [], activeTab := "all" }
  else st

/-- `playlist.findIndex(id => id === currentVideo.id)`: the index of the
first occurrence, `-1` when absent. -/
def currentIndexInPlaylist (playlist : List String) (videoId : String) : Int :=
  match playlist.findIdx? (fun id => id == videoId) with
  | some i => (i : Int)
  | none => -1

/-- `handleVideoEnd`: with a video open, look the current id up in the
playlist, move to the following index, and play the loaded video with that
id; close the player when the index is past the end of the playlist or no
loaded video has the id. -/
def handleVideoEnd (st : AppState) : AppState :=
  match st.currentVideo with
  | none => st
  | some currentVideo =>
    let currentIndex := currentIndexInPlaylist st.playlist currentVideo.id
    let nextIndex := currentIndex + 1
    if nextIndex < (st.playlist.length : Int) then
      match st.playlist.get? nextIndex.toNat with
      | some nextVideoId =>
        match st.videos.find? (fun video => video.id == nextVideoId) with
        | some nextVideo => playVideo nextVideo st
        | none => { st with currentVideo := none }
      | none => { st with currentVideo := none }
    else { st with currentVideo := none }

/-- `downloadVideo(quality)`: with no video open it returns at once; with
one open it only raises the `alert` message and leaves the state as it
was.  The second component lists the alerts shown. -/
def downloadVideo (quality : String) (st : AppState) : AppState × List String :=
  match st.currentVideo with
  | none => (st, [])
  | some currentVideo =>
    (st, ["Preparing download of " ++ currentVideo.title ++ " in " ++ quality ++ " quality..."])

/-- The browser's `localStorage`, as an association list of string keys to
string values (first binding wins). -/
abbrev LStore := List (String × String)

/-- `localStorage.getItem(key)`. -/
def lsGet (store : LStore) (key : String) : Option String :=
  store.lookup key

/-- `localStorage.setItem(key, value)`: bind `key`, dropping any earlier
binding. -/
def lsSet (store : LStore) (key value : String) : LStore :=
  (key, value) :: store.filter (fun p => p.1 != key)

/-- One character of `JSON.stringify`'s string escaping. -/
def jsonEscapeChar (c : Char) : String :=
  if c = '"' then "\\\""
  else if c = '\\' then "\\\\"
  else if c = '\n' then "\\n"
  else if c = '\r' then "\\r"
  else if c = '\t' then "\\t"
  else if c = '\x08' then "\\b"
  else if c = '\x0c' then "\\f"
  else if c.toNat < 32 then
    let hexDigit := fun (n : Nat) =>
      if n < 10 then Char.ofNat ('0'.toNat + n) else Char.ofNat ('a'.toNat + (n - 10))
    "\\u00" ++ String.mk [hexDigit (c.toNat / 16), hexDigit (c.toNat % 16)]
  else String.singleton c

/-- `JSON.stringify` of one string. -/
def jsonStringifyString (s : String) : String :=
  "\"" ++ String.join (s.toList.map jsonEscapeChar) ++ "\""

/-- `JSON.stringify` of an array of strings. -/
def jsonStringifyArray (l : List String) : String :=
  "[" ++ String.intercalate "," (l.map jsonStringifyString) ++ "]"

/-- The debounced `saveData` body: `setItem` of the four serialized lists
and of the raw `activeTab` string, in source order. -/
def saveData (favorites history playlist watchLater : List String) (activeTab : String)
    (store : LStore) : LStore :=
  let s1 := lsSet store "favorites" (jsonStringifyArray favorites)
  let s2 := lsSet s1 "history" (jsonStringifyArray history)
  let s3 := lsSet s2 "playlist" (jsonStringifyArray playlist)
  let s4 := lsSet s3 "watchLater" (jsonStringifyArray watchLater)
  lsSet s4 "activeTab" activeTab

/-- The duplicate-freeness invariant on the four persisted id lists. -/
def NodupLists (st : AppState) : Prop :=
  st.favorites.Nodup ∧ st.history.Nodup ∧ st.playlist.Nodup ∧ st.watchLater.Nodup

/-- A concrete state for the C9 witness. -/
def stW9 : AppState :=
  { videos := [], currentVideo := none, favorites := ["f1"], history := ["h1"],
    playlist := ["p1"], watchLater := [], activeTab := "all", loading := false,
    isPlaying := false }

/-- A concrete video for the C9 witness. -/
def vidW9 : Vid :=
  { id := "v9", title := "t", description := "d", thumbnail := "th", duration := "0:30",
    views := "1", date := "2024", qualities := none }

/-- The playing video of the C10 witness; its id is not in the playlist. -/
def cvW10 : Vid :=
  { id := "x", title := "tx", description := "dx", thumbnail := "t", duration := "0:10",
    views := "0", date := "2024", qualities := none }

/-- The loaded video named by the playlist's first entry. -/
def nvW10 : Vid :=
  { id := "p1", title := "tp", description := "dp", thumbnail := "t", duration := "0:20",
    views := "3", date := "2024", qualities := none }

/-- The C10 witness state: `cvW10` open, playlist `["p1"]`. -/
def stW10 : AppState :=
  { videos := [nvW10], currentVideo := some cvW10, favorites := [], history := [],
    playlist := ["p1"], watchLater := [], activeTab := "all", loading := false,
    isPlaying := true }

end App
namespace YouTubeApi

/-- Case analysis of the network path of `fetchYouTubeVideos`: search
failure, empty id list, details failure, or full success. -/
theorem fetchNetwork_cases (env : JsEnv) (net : NetEnv) (cache : Cache) (now : Int)
    (maxResults : Nat) (pageToken : String) :
    (∃ e, net.searchResp = .error e ∧
      fetchNetwork env net cache now maxResults pageToken =
        ⟨.error e, cache, [.search maxResults pageToken]⟩) ∨
    (∃ sd, net.searchResp = .ok sd ∧ extractVideoIds sd = "" ∧
      fetchNetwork env net cache now maxResults pageToken =
        ⟨.ok { videos := [] }, cache, [.search maxResults pageToken]⟩) ∨
    (∃ sd e, net.searchResp = .ok sd ∧ extractVideoIds sd ≠ "" ∧ net.videosResp = .error e ∧
      fetchNetwork env net cache now maxResults pageToken =
        ⟨.error e, cache, [.search maxResults pageToken, .videos (extractVideoIds sd)]⟩) ∨
    (∃ sd vd, net.searchResp = .ok sd ∧ extractVideoIds sd ≠ "" ∧ net.videosResp = .ok vd ∧
      fetchNetwork env net cache now maxResults pageToken =
        ⟨.ok (buildResponse env sd vd),
         cacheSet cache (cacheKey maxResults pageToken) ⟨now, buildResponse env sd vd⟩,
         [.search maxResults pageToken, .videos (extractVideoIds sd)]⟩) := by
  unfold fetchNetwork
  cases hs : net.searchResp with
  | error e => exact .inl ⟨e, rfl, rfl⟩
  | ok sd =>
    by_cases hids : extractVideoIds sd = ""
    · refine .inr (.inl ⟨sd, rfl, hids, ?_⟩)
      simp [hids]
    · cases hv : net.videosResp with
      | error e =>
        refine .inr (.inr (.inl ⟨sd, e, rfl, hids, rfl, ?_⟩))
        simp [hids]
      | ok vd =>
        refine .inr (.inr (.inr ⟨sd, vd, rfl, hids, rfl, ?_⟩))
        simp [hids]

theorem fetchNetwork_requests_head (env : JsEnv) (net : NetEnv) (cache : Cache) (now : Int)
    (maxResults : Nat) (pageToken : String) :
    (fetchNetwork env net cache now maxResults pageToken).requests.head? =
      some (Req.search maxResults pageToken) := by
  rcases fetchNetwork_cases env net cache now maxResults pageToken with
    ⟨e, _, h⟩ | ⟨sd, _, _, h⟩ | ⟨sd, e, _, _, _, h⟩ | ⟨sd, vd, _, _, _, h⟩ <;> simp [h]

end YouTubeApi

namespace YouTubeApi

/-- C1: cache behavior of `fetchYouTubeVideos`. -/
theorem fetchYouTubeVideos_cache_spec (env : JsEnv) (net : NetEnv) (cache : Cache) (now : Int)
    (maxResults : Nat) (pageToken : String) :
    (∀ e, cacheGet cache (cacheKey maxResults pageToken) = some e →
      (now - e.timestamp < CACHE_DURATION →
        fetchYouTubeVideos env net cache now maxResults pageToken =
          ⟨.ok e.data, cache, []⟩) ∧
      (CACHE_DURATION ≤ now - e.timestamp →
        (fetchYouTubeVideos env net cache now maxResults pageToken).requests.head? =
          some (Req.search maxResults pageToken))) ∧
    (cacheGet cache (cacheKey maxResults pageToken) = none →
      (fetchYouTubeVideos env net cache now maxResults pageToken).requests.head? =
        some (Req.search maxResults pageToken)) := by
  refine ⟨fun e he => ⟨fun hfresh => ?_, fun hstale => ?_⟩, fun hnone => ?_⟩
  · unfold fetchYouTubeVideos
    rw [he]
    simp [hfresh]
  · have h2 : ¬ (now - e.timestamp < CACHE_DURATION) := not_lt.mpr hstale
    unfold fetchYouTubeVideos
    simp [he, h2, fetchNetwork_requests_head]
  · unfold fetchYouTubeVideos
    simp [hnone, fetchNetwork_requests_head]

end YouTubeApi

namespace YouTubeApi

theorem count_pair_le_one {α : Type} [DecidableEq α] (a b r : α) (h : a ≠ b) :
    [a, b].count r ≤ 1 := by
  by_cases h1 : r = a <;> by_cases h2 : r = b <;>
    simp_all [List.count_cons, List.count_nil]

/-- C2: failures propagate, the cache is untouched on error, and no
request is repeated. -/
theorem fetchYouTubeVideos_error_spec (env : JsEnv) (net : NetEnv) (cache : Cache) (now : Int)
    (maxResults : Nat) (pageToken : String) :
    (∀ e, (fetchYouTubeVideos env net cache now maxResults pageToken).result = .error e →
      (fetchYouTubeVideos env net cache now maxResults pageToken).cache = cache) ∧
    (∀ r, (fetchYouTubeVideos env net cache now maxResults pageToken).requests.count r ≤ 1) ∧
    (∀ e, net.searchResp = .error e →
      (fetchNetwork env net cache now maxResults pageToken).result = .error e ∧
      (fetchNetwork env net cache now maxResults pageToken).cache = cache) ∧
    (∀ sd e, net.searchResp = .ok sd → extractVideoIds sd ≠ "" → net.videosResp = .error e →
      (fetchNetwork env net cache now maxResults pageToken).result = .error e ∧
      (fetchNetwork env net cache now maxResults pageToken).cache = cache) := by
  have hnet := fetchNetwork_cases env net cache now maxResults pageToken
  refine ⟨?_, ?_, ?_, ?_⟩
  · intro e he
    unfold fetchYouTubeVideos at he ⊢
    cases hc : cacheGet cache (cacheKey maxResults pageToken) with
    | some cached =>
      simp only [hc] at he ⊢
      by_cases hfresh : now - cached.timestamp < CACHE_DURATION
      · simp [hfresh] at he
      · simp only [if_neg hfresh] at he ⊢
        rcases hnet with ⟨e', _, h⟩ | ⟨sd, _, _, h⟩ | ⟨sd, e', _, _, _, h⟩ | ⟨sd, vd, _, _, _, h⟩ <;>
          simp [h] at he ⊢
    | none =>
      simp only [hc] at he ⊢
      rcases hnet with ⟨e', _, h⟩ | ⟨sd, _, _, h⟩ | ⟨sd, e', _, _, _, h⟩ | ⟨sd, vd, _, _, _, h⟩ <;>
        simp [h] at he ⊢
  · intro r
    unfold fetchYouTubeVideos
    cases hc : cacheGet cache (cacheKey maxResults pageToken) with
    | some cached =>
      by_cases hfresh : now - cached.timestamp < CACHE_DURATION
      · simp [hfresh]
      · simp only [if_neg hfresh]
        rcases hnet with ⟨e', _, h⟩ | ⟨sd, _, _, h⟩ | ⟨sd, e', _, _, _, h⟩ | ⟨sd, vd, _, _, _, h⟩ <;>
          rw [h] <;> first
          | exact count_pair_le_one _ _ r (by simp)
          | (simp [List.count_cons, List.count_nil]; split <;> omega)
    | none =>
      simp only []
      rcases hnet with ⟨e', _, h⟩ | ⟨sd, _, _, h⟩ | ⟨sd, e', _, _, _, h⟩ | ⟨sd, vd, _, _, _, h⟩ <;>
        rw [h] <;> first
        | exact count_pair_le_one _ _ r (by simp)
        | (simp [List.count_cons, List.count_nil]; split <;> omega)
  · intro e he
    unfold fetchNetwork
    rw [he]
    exact ⟨rfl, rfl⟩
  · intro sd e hs hids hv
    unfold fetchNetwork
    rw [hs]
    simp only [hids, if_neg, hv]
    simp [hids]

end YouTubeApi

namespace YouTubeApi

/-- C5 counterexample: a call with an empty cache (so not served from
cache) whose search succeeds with no items performs no details request
and stores nothing in the cache. -/
theorem fetchYouTubeVideos_empty_search_no_cache :
    (fetchYouTubeVideos idJsEnv emptySearchNet [] 0 10 "").cache = [] ∧
    (fetchYouTubeVideos idJsEnv emptySearchNet [] 0 10 "").requests = [Req.search 10 ""] ∧
    (fetchYouTubeVideos idJsEnv emptySearchNet [] 0 10 "").result = .ok { videos := [] } :=
  ⟨rfl, rfl, rfl⟩

/-- C5 amended: when the call is not served from cache, the search
succeeds, the extracted id list is nonempty and the details request
succeeds, the call performs exactly the search request then the details
request, and returns the reshaped response after storing it in the
cache under the composite key with the current timestamp. -/
theorem fetchYouTubeVideos_sequence_spec (env : JsEnv) (net : NetEnv) (cache : Cache) (now : Int)
    (maxResults : Nat) (pageToken : String) (sd : SearchData) (vd : VideosData)
    (hmiss : ∀ e, cacheGet cache (cacheKey maxResults pageToken) = some e →
      CACHE_DURATION ≤ now - e.timestamp)
    (hs : net.searchResp = .ok sd)
    (hids : extractVideoIds sd ≠ "")
    (hv : net.videosResp = .ok vd) :
    fetchYouTubeVideos env net cache now maxResults pageToken =
      ⟨.ok (buildResponse env sd vd),
       cacheSet cache (cacheKey maxResults pageToken) ⟨now, buildResponse env sd vd⟩,
       [.search maxResults pageToken, .videos (extractVideoIds sd)]⟩ := by
  have hnet : fetchNetwork env net cache now maxResults pageToken =
      ⟨.ok (buildResponse env sd vd),
       cacheSet cache (cacheKey maxResults pageToken) ⟨now, buildResponse env sd vd⟩,
       [.search maxResults pageToken, .videos (extractVideoIds sd)]⟩ := by
    unfold fetchNetwork
    rw [hs]
    simp [hids, hv]
  unfold fetchYouTubeVideos
  cases hc : cacheGet cache (cacheKey maxResults pageToken) with
  | some cached =>
    have h2 : ¬ (now - cached.timestamp < CACHE_DURATION) := not_lt.mpr (hmiss cached hc)
    simp [h2, hnet]
  | none => simp [hnet]

theorem fetchYouTubeVideos_sequence_spec_witness :
    fetchYouTubeVideos idJsEnv netW [] 0 10 "" =
      ⟨.ok (buildResponse idJsEnv sdW vdW),
       cacheSet [] (cacheKey 10 "") ⟨0, buildResponse idJsEnv sdW vdW⟩,
       [.search 10 "", .videos (extractVideoIds sdW)]⟩ :=
  fetchYouTubeVideos_sequence_spec idJsEnv netW [] 0 10 "" sdW vdW
    (fun e h => nomatch h) rfl (by decide) rfl

end YouTubeApi

namespace App

theorem togglePlaylist_eq_toggleFavorite : togglePlaylist = toggleFavorite := rfl

theorem toggleWatchLater_eq_toggleFavorite : toggleWatchLater = toggleFavorite := rfl

theorem toggleFavorite_toggleFavorite_mem (l : List String) (v x : String) :
    x ∈ toggleFavorite (toggleFavorite l v) v ↔ x ∈ l := by
  by_cases hc : l.contains v
  · have hv : v ∈ l := List.elem_iff.mp hc
    have hfc : ((l.filter (fun id => id != v)).contains v) = false := by
      simp [List.elem_iff, List.mem_filter]
    simp only [toggleFavorite, hc, if_true, hfc, Bool.false_eq_true, if_false]
    by_cases hx : x = v <;> simp [hx, hv, List.mem_filter]
  · have hv : v ∉ l := fun hm => hc (List.elem_iff.mpr hm)
    have hc2 : ((l ++ [v]).contains v) = true := by simp [List.elem_iff]
    have hfl : ∀ a ∈ l, (a != v) = true := by
      intro a ha
      simp only [bne_iff_ne, ne_eq]
      rintro rfl
      exact hv ha
    simp only [toggleFavorite, Bool.not_eq_true] at hc
    simp only [toggleFavorite, hc, Bool.false_eq_true, if_false, hc2, if_true]
    rw [List.filter_append, List.filter_eq_self.mpr hfl]
    simp

theorem toggleFavorite_toggleFavorite_of_not_mem (l : List String) (v : String) (hv : v ∉ l) :
    toggleFavorite (toggleFavorite l v) v = l := by
  have hc : (l.contains v) = false := by
    rw [Bool.eq_false_iff]
    intro hm
    exact hv (List.elem_iff.mp hm)
  have hc2 : ((l ++ [v]).contains v) = true := by simp [List.elem_iff]
  have hfl : ∀ a ∈ l, (a != v) = true := by
    intro a ha
    simp only [bne_iff_ne, ne_eq]
    rintro rfl
    exact hv ha
  simp only [toggleFavorite, hc, Bool.false_eq_true, if_false, hc2, if_true]
  rw [List.filter_append, List.filter_eq_self.mpr hfl]
  simp

/-- C3 counterexample: toggling `"a"` twice on `["a", "b"]` yields
`["b", "a"]`, not the original list. -/
theorem toggleFavorite_twice_reorders :
    toggleFavorite (toggleFavorite ["a", "b"] "a") "a" ≠ ["a", "b"] := by decide

/-- C3 amended: toggling twice restores membership exactly, and restores
the very list when the id was absent. -/
theorem toggle_twice_spec (l : List String) (videoId : String) :
    ((∀ x, x ∈ toggleFavorite (toggleFavorite l videoId) videoId ↔ x ∈ l) ∧
      (videoId ∉ l → toggleFavorite (toggleFavorite l videoId) videoId = l)) ∧
    ((∀ x, x ∈ togglePlaylist (togglePlaylist l videoId) videoId ↔ x ∈ l) ∧
      (videoId ∉ l → togglePlaylist (togglePlaylist l videoId) videoId = l)) ∧
    ((∀ x, x ∈ toggleWatchLater (toggleWatchLater l videoId) videoId ↔ x ∈ l) ∧
      (videoId ∉ l → toggleWatchLater (toggleWatchLater l videoId) videoId = l)) := by
  rw [togglePlaylist_eq_toggleFavorite, toggleWatchLater_eq_toggleFavorite]
  exact ⟨⟨fun x => toggleFavorite_toggleFavorite_mem l videoId x,
          toggleFavorite_toggleFavorite_of_not_mem l videoId⟩,
         ⟨fun x => toggleFavorite_toggleFavorite_mem l videoId x,
          toggleFavorite_toggleFavorite_of_not_mem l videoId⟩,
         ⟨fun x => toggleFavorite_toggleFavorite_mem l videoId x,
          toggleFavorite_toggleFavorite_of_not_mem l videoId⟩⟩

end App

namespace App

/-- C4: each list tab only shows videos whose id the list holds; the
`"all"` tab applies exactly the search restriction; every tab applies the
search restriction. -/
theorem filteredVideos_spec (videos : List Vid) (searchQuery : String)
    (favorites history playlist watchLater : List String) :
    (∀ v ∈ filteredVideos videos searchQuery "favorites" favorites history playlist watchLater,
      matchesSearch searchQuery v = true ∧ v.id ∈ favorites) ∧
    (∀ v ∈ filteredVideos videos searchQuery "history" favorites history playlist watchLater,
      matchesSearch searchQuery v = true ∧ v.id ∈ history) ∧
    (∀ v ∈ filteredVideos videos searchQuery "playlist" favorites history playlist watchLater,
      matchesSearch searchQuery v = true ∧ v.id ∈ playlist) ∧
    (∀ v ∈ filteredVideos videos searchQuery "watchLater" favorites history playlist watchLater,
      matchesSearch searchQuery v = true ∧ v.id ∈ watchLater) ∧
    (∀ v, v ∈ filteredVideos videos searchQuery "all" favorites history playlist watchLater ↔
      v ∈ videos ∧ matchesSearch searchQuery v = true) ∧
    (∀ activeTab, ∀ v ∈ filteredVideos videos searchQuery activeTab favorites history playlist watchLater,
      matchesSearch searchQuery v = true) := by
  refine ⟨?_, ?_, ?_, ?_, ?_, ?_⟩
  · intro v hv
    simp [filteredVideos, List.mem_filter] at hv
    exact hv.2
  · intro v hv
    simp [filteredVideos, List.mem_filter] at hv
    exact hv.2
  · intro v hv
    simp [filteredVideos, List.mem_filter] at hv
    exact hv.2
  · intro v hv
    simp [filteredVideos, List.mem_filter] at hv
    exact hv.2
  · intro v
    simp [filteredVideos, List.mem_filter]
  · intro activeTab v hv
    simp only [filteredVideos, List.mem_filter] at hv
    obtain ⟨-, hp⟩ := hv
    split_ifs at hp <;> simp_all

end App

namespace App

theorem lookup_filter_ne (store : LStore) (key key2 : String) (h : key2 ≠ key) :
    (store.filter (fun p => p.1 != key)).lookup key2 = store.lookup key2 := by
  induction store with
  | nil => rfl
  | cons p t ih =>
    by_cases hp : p.1 = key
    · have : (p.1 != key) = false := by simp [hp]
      simp only [List.filter_cons, this, Bool.false_eq_true, if_false]
      rw [ih]
      have : (key2 == p.1) = false := by simp [hp, h]
      simp [List.lookup, this]
    · have : (p.1 != key) = true := by simp [hp]
      simp only [List.filter_cons, this, if_true]
      by_cases hk : key2 = p.1
      · simp [List.lookup, hk]
      · have hb : (key2 == p.1) = false := by simp [hk]
        simp [List.lookup, hb, ih]

theorem lsGet_lsSet_same (store : LStore) (key value : String) :
    lsGet (lsSet store key value) key = some value := by
  simp [lsGet, lsSet, List.lookup]

theorem lsGet_lsSet_ne (store : LStore) (key key2 value : String) (h : key2 ≠ key) :
    lsGet (lsSet store key value) key2 = lsGet store key2 := by
  have hb : (key2 == key) = false := by simp [h]
  simp only [lsGet, lsSet, List.lookup, hb]
  exact lookup_filter_ne store key key2 h

/-- C6: the debounced save binds exactly the four serialized id lists and
the raw active-tab string, and touches no other key of the store. -/
theorem saveData_spec (favorites history playlist watchLater : List String)
    (activeTab : String) (store : LStore) :
    lsGet (saveData favorites history playlist watchLater activeTab store) "favorites" =
      some (jsonStringifyArray favorites) ∧
    lsGet (saveData favorites history playlist watchLater activeTab store) "history" =
      some (jsonStringifyArray history) ∧
    lsGet (saveData favorites history playlist watchLater activeTab store) "playlist" =
      some (jsonStringifyArray playlist) ∧
    lsGet (saveData favorites history playlist watchLater activeTab store) "watchLater" =
      some (jsonStringifyArray watchLater) ∧
    lsGet (saveData favorites history playlist watchLater activeTab store) "activeTab" =
      some activeTab ∧
    (∀ key, key ≠ "favorites" → key ≠ "history" → key ≠ "playlist" → key ≠ "watchLater" →
      key ≠ "activeTab" →
      lsGet (saveData favorites history playlist watchLater activeTab store) key =
        lsGet store key) := by
  simp only [saveData]
  refine ⟨?_, ?_, ?_, ?_, ?_, ?_⟩
  · rw [lsGet_lsSet_ne _ _ _ _ (by decide), lsGet_lsSet_ne _ _ _ _ (by decide),
        lsGet_lsSet_ne _ _ _ _ (by decide), lsGet_lsSet_ne _ _ _ _ (by decide),
        lsGet_lsSet_same]
  · rw [lsGet_lsSet_ne _ _ _ _ (by decide), lsGet_lsSet_ne _ _ _ _ (by decide),
        lsGet_lsSet_ne _ _ _ _ (by decide), lsGet_lsSet_same]
  · rw [lsGet_lsSet_ne _ _ _ _ (by decide), lsGet_lsSet_ne _ _ _ _ (by decide),
        lsGet_lsSet_same]
  · rw [lsGet_lsSet_ne _ _ _ _ (by decide), lsGet_lsSet_same]
  · rw [lsGet_lsSet_same]
  · intro key h1 h2 h3 h4 h5
    rw [lsGet_lsSet_ne _ _ _ _ h5, lsGet_lsSet_ne _ _ _ _ h4, lsGet_lsSet_ne _ _ _ _ h3,
        lsGet_lsSet_ne _ _ _ _ h2, lsGet_lsSet_ne _ _ _ _ h1]

/-- C7: a failed initial load is swallowed: the prior videos are kept,
`loading` ends `false`, every other state field is untouched, and the
handler returns normally (it is a total function). -/
theorem loadData_error_spec (st : AppState) (e : String) :
    loadData (.error e) st = { st with loading := false } ∧
    (loadData (.error e) st).videos = st.videos ∧
    (loadData (.error e) st).loading = false :=
  ⟨rfl, rfl, rfl⟩

/-- C8: the download feature is a stub: the state is returned unchanged
and, with a video open, only the alert message is emitted. -/
theorem downloadVideo_spec (st : AppState) (quality : String) :
    (downloadVideo quality st).1 = st ∧
    (∀ cv, st.currentVideo = some cv →
      (downloadVideo quality st).2 =
        ["Preparing download of " ++ cv.title ++ " in " ++ quality ++ " quality..."]) ∧
    (st.currentVideo = none → (downloadVideo quality st).2 = []) := by
  cases h : st.currentVideo with
  | none => simp [downloadVideo, h]
  | some cv => simp [downloadVideo, h]

end App

namespace App

theorem toggleFavorite_nodup (l : List String) (v : String) (h : l.Nodup) :
    (toggleFavorite l v).Nodup := by
  unfold toggleFavorite
  split
  · exact h.filter _
  · next hc =>
    have hv : v ∉ l := fun hm => hc (List.elem_iff.mpr hm)
    simp [List.nodup_append, h, hv]

theorem append_if_new_nodup (l : List String) (v : String) (h : l.Nodup) :
    (if l.contains v then l else l ++ [v]).Nodup := by
  split
  · exact h
  · next hc =>
    have hv : v ∉ l := fun hm => hc (List.elem_iff.mpr hm)
    simp [List.nodup_append, h, hv]

/-- C9: every modelled mutation of the four id lists preserves
duplicate-freeness. -/
theorem appOps_preserve_nodup (st : AppState) (videoId : String) (video : Vid)
    (confirmed : Bool) (h : NodupLists st) :
    NodupLists (appToggleFavorite videoId st) ∧
    NodupLists (appTogglePlaylist videoId st) ∧
    NodupLists (appToggleWatchLater videoId st) ∧
    NodupLists (playVideo video st) ∧
    NodupLists (clearAllData confirmed st) := by
  obtain ⟨h1, h2, h3, h4⟩ := h
  refine ⟨⟨toggleFavorite_nodup _ _ h1, h2, h3, h4⟩,
          ⟨h1, h2, toggleFavorite_nodup _ _ h3, h4⟩,
          ⟨h1, h2, h3, toggleFavorite_nodup _ _ h4⟩,
          ⟨h1, append_if_new_nodup _ _ h2, h3, h4⟩,
          ?_⟩
  unfold clearAllData
  split
  · exact ⟨List.nodup_nil, List.nodup_nil, List.nodup_nil, List.nodup_nil⟩
  · exact ⟨h1, h2, h3, h4⟩

theorem appOps_preserve_nodup_witness :
    NodupLists (appToggleFavorite "v9" stW9) ∧
    NodupLists (appTogglePlaylist "v9" stW9) ∧
    NodupLists (appToggleWatchLater "v9" stW9) ∧
    NodupLists (playVideo vidW9 stW9) ∧
    NodupLists (clearAllData true stW9) :=
  appOps_preserve_nodup stW9 "v9" vidW9 true
    ⟨by decide, by decide, by decide, by decide⟩

end App

namespace App

/-- C10: with a video open whose id is not in a non-empty playlist,
`findIndex` yields `-1`, so the next index is `0` and the playlist's first
entry is played when it names a loaded video; and whenever `handleVideoEnd`
closes the player, either the next index is past the playlist's end or the
next id names no loaded video. -/
theorem handleVideoEnd_spec (st : AppState) (cv : Vid)
    (hcv : st.currentVideo = some cv) :
    (st.playlist.contains cv.id = false → st.playlist ≠ [] →
      currentIndexInPlaylist st.playlist cv.id = -1 ∧
      ∀ firstId, st.playlist.head? = some firstId →
        (∀ nv, st.videos.find? (fun video => video.id == firstId) = some nv →
          handleVideoEnd st = playVideo nv st) ∧
        (st.videos.find? (fun video => video.id == firstId) = none →
          (handleVideoEnd st).currentVideo = none)) ∧
    ((handleVideoEnd st).currentVideo = none →
      (st.playlist.length : Int) ≤ currentIndexInPlaylist st.playlist cv.id + 1 ∨
      ∃ nextId,
        st.playlist.get? (currentIndexInPlaylist st.playlist cv.id + 1).toNat = some nextId ∧
        st.videos.find? (fun video => video.id == nextId) = none) := by
  constructor
  · intro hni hne
    have hmem : cv.id ∉ st.playlist := fun hm => by
      have hx : st.playlist.contains cv.id = true := List.elem_iff.mpr hm
      rw [hni] at hx
      cases hx
    have hidx : currentIndexInPlaylist st.playlist cv.id = -1 := by
      unfold currentIndexInPlaylist
      have hfind : st.playlist.findIdx? (fun id => id == cv.id) = none := by
        rw [List.findIdx?_eq_none_iff]
        intro x hx
        simp only [beq_eq_false_iff_ne, ne_eq]
        rintro rfl
        exact hmem hx
      rw [hfind]
    refine ⟨hidx, fun firstId hfirst => ?_⟩
    have hlen : 0 < st.playlist.length := List.length_pos.mpr hne
    have hcond : currentIndexInPlaylist st.playlist cv.id + 1 < (st.playlist.length : Int) := by
      rw [hidx]
      omega
    have hget : st.playlist.get? (currentIndexInPlaylist st.playlist cv.id + 1).toNat =
        some firstId := by
      rw [hidx]
      show st.playlist.get? (0 : Int).toNat = some firstId
      cases hpl : st.playlist with
      | nil => rw [hpl] at hfirst; cases hfirst
      | cons a t => rw [hpl] at hfirst; simpa using hfirst
    constructor
    · intro nv hnv
      unfold handleVideoEnd
      rw [hcv]
      simp only [if_pos hcond, hget, hnv]
    · intro hnone
      unfold handleVideoEnd
      rw [hcv]
      simp only [if_pos hcond, hget, hnone]
  · intro hclose
    by_cases hlt : currentIndexInPlaylist st.playlist cv.id + 1 < (st.playlist.length : Int)
    · right
      have h0 : 0 ≤ currentIndexInPlaylist st.playlist cv.id + 1 := by
        unfold currentIndexInPlaylist
        cases hf : st.playlist.findIdx? (fun id => id == cv.id) with
        | none => simp
        | some i => simp; omega
      cases hget : st.playlist.get? (currentIndexInPlaylist st.playlist cv.id + 1).toNat with
      | none =>
        exfalso
        have hlen := List.get?_eq_none.mp hget
        omega
      | some nextId =>
        refine ⟨nextId, rfl, ?_⟩
        cases hfind : st.videos.find? (fun video => video.id == nextId) with
        | some nv =>
          exfalso
          unfold handleVideoEnd at hclose
          rw [hcv] at hclose
          simp only [if_pos hlt, hget, hfind] at hclose
          simp [playVideo] at hclose
        | none => rfl
    · left
      omega

end App

namespace App

theorem handleVideoEnd_spec_witness :
    handleVideoEnd stW10 = playVideo nvW10 stW10 :=
  ((((handleVideoEnd_spec stW10 cvW10 rfl).1 (by decide) (by decide)).2 "p1" rfl).1 nvW10 rfl)

end App
